import Mathlib

/-!
Verification development for the cc-api-sandbox repository.

The repository (src/src/app.ts) is a thin Express process that loads an
OpenAPI description and serves mock responses through the openapi-backend
library.  The handlers `validationFail`, `notFound`, `notImplemented`, the
custom ajv format predicates, the `api.register` call and the
fault-propagating middleware are embedded here directly from the source.
The dispatcher core (operation matching, schema validation, response
resolution) lives in the third-party library, not under src/, and is
modelled from the specification where a definition is marked as such.
-/

namespace CCApi

/-- JavaScript/JSON values as produced by `JSON.parse`.  Numeric values are
kept as the integer part of the parsed literal: only the JavaScript `typeof`
category of a value matters in this development, never its numeric value. -/
inductive JsValue where
  | null : JsValue
  | bool (b : Bool) : JsValue
  | num (n : Int) : JsValue
  | str (s : String) : JsValue
  | arr (xs : List JsValue) : JsValue
  | obj (fields : List (String × JsValue)) : JsValue

/-- The JavaScript `typeof` operator on parsed JSON values: `typeof null`,
`typeof []` and `typeof \x7b\x7d` are all `"object"`. -/
def jsTypeof : JsValue → String
  | .null => "object"
  | .bool _ => "boolean"
  | .num _ => "number"
  | .str _ => "string"
  | .arr _ => "object"
  | .obj _ => "object"

/-! ### A JSON parser embedding `JSON.parse`

`app.ts` calls the JavaScript built-in `JSON.parse` inside the `"JSON"`
format predicate.  The parser below follows ECMA-404 JSON grammar:
whitespace, `null`/`true`/`false`, numbers (no leading zeros, optional
fraction and exponent), strings with escapes, arrays and objects. -/

def isJsonWs (c : Char) : Bool :=
  c = ' ' ∨ c = '\t' ∨ c = '\n' ∨ c = '\r'

def skipWs (cs : List Char) : List Char :=
  cs.dropWhile isJsonWs

def hexVal (c : Char) : Option Nat :=
  if '0' ≤ c ∧ c ≤ '9' then some (c.toNat - '0'.toNat)
  else if 'a' ≤ c ∧ c ≤ 'f' then some (c.toNat - 'a'.toNat + 10)
  else if 'A' ≤ c ∧ c ≤ 'F' then some (c.toNat - 'A'.toNat + 10)
  else none

/-- Parse the remainder of a JSON string literal (the opening quote already
consumed), returning the decoded characters and the rest of the input. -/
def parseStringRest : List Char → Option (List Char × List Char)
  | [] => none
  | '"' :: rest => some ([], rest)
  | '\\' :: rest =>
    match rest with
    | '"' :: r => (parseStringRest r).map (fun p => ('"' :: p.1, p.2))
    | '\\' :: r => (parseStringRest r).map (fun p => ('\\' :: p.1, p.2))
    | '/' :: r => (parseStringRest r).map (fun p => ('/' :: p.1, p.2))
    | 'b' :: r => (parseStringRest r).map (fun p => ('\x08' :: p.1, p.2))
    | 'f' :: r => (parseStringRest r).map (fun p => ('\x0c' :: p.1, p.2))
    | 'n' :: r => (parseStringRest r).map (fun p => ('\n' :: p.1, p.2))
    | 'r' :: r => (parseStringRest r).map (fun p => ('\r' :: p.1, p.2))
    | 't' :: r => (parseStringRest r).map (fun p => ('\t' :: p.1, p.2))
    | 'u' :: a :: b :: c :: d :: r =>
      match hexVal a, hexVal b, hexVal c, hexVal d with
      | some ha, some hb, some hc, some hd =>
        (parseStringRest r).map
          (fun p => (Char.ofNat (ha * 4096 + hb * 256 + hc * 16 + hd) :: p.1, p.2))
      | _, _, _, _ => none
    | _ => none
  | c :: rest =>
    if c.toNat < 32 then none
    else (parseStringRest rest).map (fun p => (c :: p.1, p.2))

def digitsToNat (ds : List Char) : Nat :=
  ds.foldl (fun a c => a * 10 + (c.toNat - '0'.toNat)) 0

/-- Consume an optional fraction part `.digits` followed by an optional
exponent part `[eE][+-]?digits`; fails when the marker is present but its
digits are missing, as `JSON.parse` does. -/
def parseFracExp (cs : List Char) : Option (List Char) :=
  let afterFrac : Option (List Char) :=
    match cs with
    | '.' :: r =>
      let p := r.span Char.isDigit
      if p.1.isEmpty then none else some p.2
    | _ => some cs
  match afterFrac with
  | none => none
  | some cs1 =>
    match cs1 with
    | 'e' :: r | 'E' :: r =>
      let r1 := match r with
        | '+' :: r2 => r2
        | '-' :: r2 => r2
        | _ => r
      let p := r1.span Char.isDigit
      if p.1.isEmpty then none else some p.2
    | _ => some cs1

/-- Parse a JSON number literal; the value kept is its integer part (see
`JsValue.num`).  Leading zeros are rejected as in `JSON.parse`. -/
def parseNumber (cs : List Char) : Option (JsValue × List Char) :=
  let (neg, cs1) :=
    match cs with
    | '-' :: r => (true, r)
    | _ => (false, cs)
  let p := cs1.span Char.isDigit
  let digs := p.1
  if digs.isEmpty then none
  else if digs.head? = some '0' ∧ digs.length > 1 then none
  else
    match parseFracExp p.2 with
    | none => none
    | some rest =>
      let n : Int := Int.ofNat (digitsToNat digs)
      some (.num (if neg then -n else n), rest)

mutual

/-- Fuel-indexed JSON value parser: one unit of fuel per parsed value or
list continuation, so `length + 2` fuel always suffices for a whole input. -/
def parseVal : Nat → List Char → Option (JsValue × List Char)
  | 0, _ => none
  | fuel + 1, cs =>
    match skipWs cs with
    | 'n' :: 'u' :: 'l' :: 'l' :: rest => some (.null, rest)
    | 't' :: 'r' :: 'u' :: 'e' :: rest => some (.bool true, rest)
    | 'f' :: 'a' :: 'l' :: 's' :: 'e' :: rest => some (.bool false, rest)
    | '"' :: rest =>
      (parseStringRest rest).map (fun p => (.str (String.mk p.1), p.2))
    | '[' :: rest =>
      match skipWs rest with
      | ']' :: r => some (.arr [], r)
      | _ =>
        (parseElems fuel rest).map (fun p => (.arr p.1, p.2))
    | '\x7b' :: rest =>
      match skipWs rest with
      | '\x7d' :: r => some (.obj [], r)
      | _ =>
        (parseMembers fuel rest).map (fun p => (.obj p.1, p.2))
    | c :: rest =>
      if c = '-' ∨ c.isDigit then parseNumber (c :: rest) else none
    | [] => none

/-- Parse one or more comma-separated array elements up to `]`. -/
def parseElems : Nat → List Char → Option (List JsValue × List Char)
  | 0, _ => none
  | fuel + 1, cs =>
    match parseVal fuel cs with
    | none => none
    | some (v, r) =>
      match skipWs r with
      | ',' :: r2 =>
        (parseElems fuel r2).map (fun p => (v :: p.1, p.2))
      | ']' :: r2 => some ([v], r2)
      | _ => none

/-- Parse one or more comma-separated object members up to the closing
brace. -/
def parseMembers : Nat → List Char → Option (List (String × JsValue) × List Char)
  | 0, _ => none
  | fuel + 1, cs =>
    match skipWs cs with
    | '"' :: r =>
      match parseStringRest r with
      | none => none
      | some (key, r2) =>
        match skipWs r2 with
        | ':' :: r3 =>
          match parseVal fuel r3 with
          | none => none
          | some (v, r4) =>
            match skipWs r4 with
            | ',' :: r5 =>
              (parseMembers fuel r5).map
                (fun p => ((String.mk key, v) :: p.1, p.2))
            | '\x7d' :: r5 => some ([(String.mk key, v)], r5)
            | _ => none
        | _ => none
    | _ => none

end

/-- `JSON.parse`: parse a whole string as one JSON value, rejecting trailing
garbage. -/
def jsonParse (s : String) : Option JsValue :=
  match parseVal (s.length + 2) s.toList with
  | some (v, rest) => if (skipWs rest).isEmpty then some v else none
  | none => none

/-- From src/src/app.ts, the `ajv.addFormat("JSON", ...)` predicate:
`try \x7b return typeof JSON.parse(x) == "object" \x7d catch \x7b return false \x7d`. -/
def jsonFormatValidate (x : String) : Bool :=
  match jsonParse x with
  | some v => jsTypeof v == "object"
  | none => false

/-! ### Path templates and the Request Matcher

Modelled from the spec (4.2, 4.3): matching and precedence are performed by
the openapi-backend library, whose code is not under src/. -/

/-- One segment of a path template: a literal or a named placeholder. -/
inductive Seg where
  | lit (s : String) : Seg
  | param (name : String) : Seg
deriving DecidableEq, BEq

/-- Modelled from the spec: a concrete path segment matches a placeholder
unconditionally and a literal only on exact string equality; templates are
matched segment-wise, collecting placeholder bindings. -/
def matchSegs : List Seg → List String → Option (List (String × String))
  | [], [] => some []
  | .lit s :: t, x :: xs => if s = x then matchSegs t xs else none
  | .param n :: t, x :: xs => (matchSegs t xs).map (fun bs => (n, x) :: bs)
  | _, _ => none

/-- Literal segments weigh more than placeholders for specificity. -/
def segWeight : Seg → Nat
  | .lit _ => 1
  | .param _ => 0

/-- The specificity key of a template: its per-segment weights. -/
def specKey (t : List Seg) : List Nat :=
  t.map segWeight

/-- Strict left-to-right lexicographic comparison of specificity keys. -/
def lexGt : List Nat → List Nat → Bool
  | a :: as, b :: bs =>
    if b < a then true else if a < b then false else lexGt as bs
  | _, _ => false

/-! ### Schemas and the Schema Validator

Modelled from the spec (4.4): validation is performed by ajv inside the
openapi-backend library, not under src/. -/

/-- Primitive types declared for path/query/header parameters, which arrive
as strings at the transport boundary and are coerced before validation. -/
inductive PrimType where
  | integer : PrimType
  | number : PrimType
  | boolean : PrimType
  | string : PrimType
deriving DecidableEq

/-- Whether a raw string value can be coerced to the declared type. -/
def coercePrim : PrimType → String → Bool
  | .integer, s => s.toInt?.isSome
  | .number, s =>
    match parseNumber s.toList with
    | some p => p.2.isEmpty
    | none => false
  | .boolean, s => s = "true" ∨ s = "false"
  | .string, _ => true

/-- One declared parameter of a location schema. -/
structure ParamSpec where
  name : String
  type : PrimType
  required : Bool
deriving DecidableEq

/-- The four validated locations of a request. -/
inductive Location where
  | path : Location
  | query : Location
  | header : Location
  | body : Location
deriving DecidableEq

/-- A structured validation violation: which location, which field, and
why. -/
structure Violation where
  location : Location
  field : String
  message : String
deriving DecidableEq

/-- Modelled from the spec: validate one parameter location against its
schema in declaration order — a missing required field is a `required`
violation, a present field that cannot be coerced is a `type` violation. -/
def checkParams (loc : Location) (schema : List ParamSpec)
    (vals : List (String × String)) : List Violation :=
  schema.filterMap (fun ps =>
    match vals.lookup ps.name with
    | some v =>
      if coercePrim ps.type v then none
      else some ⟨loc, ps.name, "type"⟩
    | none =>
      if ps.required then some ⟨loc, ps.name, "required"⟩ else none)

/-- Types a body field can be declared with. -/
inductive JsType where
  | string : JsType
  | number : JsType
  | boolean : JsType
  | object : JsType
  | array : JsType
deriving DecidableEq

/-- Whether a parsed body value has the declared type. -/
def typeMatches : JsType → JsValue → Bool
  | .string, .str _ => true
  | .number, .num _ => true
  | .boolean, .bool _ => true
  | .object, .obj _ => true
  | .array, .arr _ => true
  | _, _ => false

/-- A request-body schema: required field names and per-field types. -/
structure BodySchema where
  required : List String
  fields : List (String × JsType)

/-- Modelled from the spec: validate the request body against its schema —
required fields first, then declared field types, both in declaration
order; a non-object body is a single shape violation. -/
def checkBody (schema : BodySchema) (body : Option JsValue) : List Violation :=
  match body with
  | none => schema.required.map (fun r => ⟨.body, r, "required"⟩)
  | some (.obj fs) =>
    (schema.required.filter (fun r => (fs.lookup r).isNone)).map
      (fun r => (⟨.body, r, "required"⟩ : Violation))
    ++ schema.fields.filterMap (fun f =>
      match fs.lookup f.1 with
      | some v => if typeMatches f.2 v then none else some ⟨.body, f.1, "type"⟩
      | none => none)
  | some _ => [⟨.body, "", "expected object"⟩]

/-! ### Operations and requests -/

/-- The key of a declared example response: a numeric status code or the
operation's documented `default` response. -/
inductive StatusKey where
  | code (n : Nat) : StatusKey
  | defaultResp : StatusKey
deriving DecidableEq

/-- An OperationDescriptor of the spec's data model: identity, method, path
template, per-location schemas and example payloads keyed by status. -/
structure Operation where
  operationId : Option String
  method : String
  pathT : List Seg
  pathSchema : List ParamSpec
  querySchema : List ParamSpec
  headerSchema : List ParamSpec
  bodySchema : BodySchema
  examples : List (StatusKey × JsValue)

/-- An IncomingRequest: method, path segments, query and header mappings,
and optional parsed body. -/
structure Req where
  method : String
  pathSegs : List String
  query : List (String × String)
  headers : List (String × String)
  body : Option JsValue

/-- The violations of one location of a matched request. -/
def locViols (op : Operation) (pp : List (String × String)) (req : Req) :
    Location → List Violation
  | .path => checkParams .path op.pathSchema pp
  | .query => checkParams .query op.querySchema req.query
  | .header => checkParams .header op.headerSchema req.headers
  | .body => checkBody op.bodySchema req.body

/-- Modelled from the spec: all violations of a request, aggregated in the
stable order path, query, headers, body. -/
def violationsOf (op : Operation) (pp : List (String × String)) (req : Req) :
    List Violation :=
  checkParams .path op.pathSchema pp
  ++ checkParams .query op.querySchema req.query
  ++ checkParams .header op.headerSchema req.headers
  ++ checkBody op.bodySchema req.body

/-- Validation checked with the locations taken in an explicit order. -/
def validateInOrder (op : Operation) (pp : List (String × String)) (req : Req)
    (order : List Location) : List Violation :=
  (order.map (locViols op pp req)).flatten

/-- The validator's outcome: `valid`, or `invalid` with the ordered
violation list. -/
inductive ValidationOutcome where
  | valid : ValidationOutcome
  | invalid (viols : List Violation) : ValidationOutcome
deriving DecidableEq

/-- Modelled from the spec: the Schema Validator. -/
def validate (op : Operation) (pp : List (String × String)) (req : Req) :
    ValidationOutcome :=
  let vs := violationsOf op pp req
  if vs.isEmpty then .valid else .invalid vs

/-! ### The Request Matcher -/

/-- The matcher's result. -/
inductive MatchResult where
  | matched (op : Operation) (params : List (String × String)) : MatchResult
  | unmatched : MatchResult
  | ambiguous (cands : List Operation) : MatchResult

/-- Modelled from the spec: find all operations whose method and template
match, pick the most specific by `lexGt` (literal beats placeholder at the
same position), and report a tie in specificity as `ambiguous`. -/
def matchRequest (ops : List Operation) (method : String)
    (path : List String) : MatchResult :=
  let cands := ops.filterMap (fun op =>
    if op.method = method then
      (matchSegs op.pathT path).map (fun bs => (op, bs))
    else none)
  match cands with
  | [] => .unmatched
  | c :: rest =>
    let best := rest.foldl
      (fun acc x =>
        if lexGt (specKey x.1.pathT) (specKey acc.1.pathT) then x else acc) c
    if 1 < (cands.filter
        (fun x => specKey x.1.pathT == specKey best.1.pathT)).length then
      .ambiguous (cands.map (fun x => x.1))
    else
      .matched best.1 best.2

/-! ### The Response Resolver and the Dispatcher -/

/-- A ResponseResult: status code, body, optional headers. -/
structure Response where
  status : Nat
  body : JsValue
  headers : List (String × String) := []

/-- A custom handler: may return a response or fault (an exception or a
rejected promise is modelled as `Except.error`). -/
def Handler : Type :=
  Req → Except String Response

/-- From src/src/app.ts: `api.register(\x7b Heartbeat: heartbeat \x7d)` — handler
entries are added to the registry, keyed by operationId. -/
def registerHandlers (registry entries : List (String × Handler)) :
    List (String × Handler) :=
  entries ++ registry

/-- Look a handler up by operationId. -/
def lookupHandler (registry : List (String × Handler)) (oid : String) :
    Option Handler :=
  registry.lookup oid

/-- Modelled from the spec: the heartbeat custom handler
(src/handlers/heartbeat is imported by app.ts but not under src/); it
returns a fixed ResponseResult mimicking the live endpoint. -/
def heartbeat : Handler :=
  fun _ => .ok ⟨200, .obj [("status", .str "ok")], []⟩

/-- The registry built by src/src/app.ts at startup. -/
def appRegistry : List (String × Handler) :=
  registerHandlers [] [("Heartbeat", heartbeat)]

/-- The declared examples with a success (2xx) status code. -/
def successExamples (op : Operation) : List (Nat × JsValue) :=
  op.examples.filterMap (fun e =>
    match e.1 with
    | .code c => if 200 ≤ c ∧ c < 300 then some (c, e.2) else none
    | .defaultResp => none)

/-- The operation's documented `default` example, when declared. -/
def defaultExample (op : Operation) : Option JsValue :=
  (op.examples.filterMap (fun e =>
    match e.1 with
    | .defaultResp => some e.2
    | .code _ => none)).head?

/-- The entry with the lowest status code (first on ties). -/
def minByCode : List (Nat × JsValue) → Option (Nat × JsValue)
  | [] => none
  | x :: xs => some (xs.foldl (fun acc y => if y.1 < acc.1 then y else acc) x)

/-- Modelled from the spec: the generic `501 Not Implemented` sentinel
body. -/
def mockSentinel : JsValue :=
  .obj [("status", .num 501), ("err", .str "not implemented")]

/-- Modelled from the spec: `mockResponseForOperation` selects the lowest
declared success status code and returns its example payload as-is, else
the operation's documented default, else the 501 sentinel. -/
def mockResponseForOperation (op : Operation) : Nat × JsValue :=
  match minByCode (successExamples op) with
  | some cp => cp
  | none =>
    match defaultExample op with
    | some p => (200, p)
    | none => (501, mockSentinel)

/-- JavaScript truthiness of the optional operationId (`undefined` and the
empty string are falsy). -/
def opIdTruthy : Option String → Bool
  | some s => s != ""
  | none => false

/-- From src/src/app.ts, the `notImplemented` handler: when the operation
has a truthy operationId, answer with `mockResponseForOperation`; otherwise
with status 500 and an empty object body. -/
def notImplemented (op : Operation) : Response :=
  if opIdTruthy op.operationId then
    let sm := mockResponseForOperation op
    ⟨sm.1, sm.2, []⟩
  else
    ⟨500, .obj [], []⟩

/-- Modelled from the spec: the Response Resolver — a registered custom
handler's return value is the ResponseResult verbatim; without one, the
`notImplemented` fallback from app.ts runs. -/
def resolveOp (registry : List (String × Handler)) (op : Operation)
    (req : Req) : Except String Response :=
  match op.operationId.bind (lookupHandler registry) with
  | some h => h req
  | none => .ok (notImplemented op)

/-- Render one violation as JSON for the 400 response body. -/
def locName : Location → String
  | .path => "path"
  | .query => "query"
  | .header => "header"
  | .body => "body"

def violationToJson (v : Violation) : JsValue :=
  .obj [("location", .str (locName v.location)), ("field", .str v.field),
        ("message", .str v.message)]

/-- From src/src/app.ts, the `validationFail` handler's response:
`res.status(400).json(\x7b err: c.validation.errors \x7d)`. -/
def validationFailResponse (vs : List Violation) : Response :=
  ⟨400, .obj [("err", .arr (vs.map violationToJson))], []⟩

/-- From src/src/app.ts, the `notFound` handler's response:
`res.status(404).json(\x7b err: "not found" \x7d)`. -/
def notFoundResponse : Response :=
  ⟨404, .obj [("err", .str "not found")], []⟩

/-- Modelled from the spec: the AmbiguousSpec outcome is a 500 with an
implementation-defined body. -/
def ambiguousResponse : Response :=
  ⟨500, .obj [("err", .str "ambiguous")], []⟩

/-- Modelled from the spec (4.6) with the outcome responses embedded from
app.ts: the Dispatcher — match, then validate, then resolve; a handler
fault surfaces as `Except.error`. -/
def handleRequest (ops : List Operation) (registry : List (String × Handler))
    (req : Req) : Except String Response :=
  match matchRequest ops req.method req.pathSegs with
  | .unmatched => .ok notFoundResponse
  | .ambiguous _ => .ok ambiguousResponse
  | .matched op pp =>
    match validate op pp req with
    | .invalid vs => .ok (validationFailResponse vs)
    | .valid => resolveOp registry op req

/-- What the app.ts middleware hands to Express after a request. -/
inductive TransportSignal where
  | next : TransportSignal
  | nextErr (e : String) : TransportSignal
deriving DecidableEq

/-- From src/src/app.ts: `api.handleRequest(...).then(() => next()).catch((e)
=> next(e))` — a resolved dispatch continues the chain, a rejected one is
passed onward as an error. -/
def middlewareStep : Except String Response → TransportSignal
  | .ok _ => .next
  | .error e => .nextErr e

/-! ### The Specification Loader

Modelled from the spec (4.1, data-model invariants): loading rejects
duplicate (method, path template) pairs; document-level malformedness and
reference resolution concern the raw document and are outside this model. -/

inductive SpecLoadError where
  | malformed : SpecLoadError
  | unresolvedReference : SpecLoadError
  | duplicateOperation : SpecLoadError
deriving DecidableEq

def opKey (op : Operation) : String × List Seg :=
  (op.method, op.pathT)

def hasDuplicateKeys : List Operation → Bool
  | [] => false
  | op :: rest => rest.any (fun o => opKey o == opKey op) || hasDuplicateKeys rest

/-- Modelled from the spec: the Specification Loader on a normalized
operation list. -/
def load (ops : List Operation) : Except SpecLoadError (List Operation) :=
  if hasDuplicateKeys ops then .error .duplicateOperation else .ok ops

/-- An example payload replayed through the Validator as if it were a
request against its own operation. -/
def exampleRequest (op : Operation) (payload : JsValue) : Req :=
  ⟨op.method, [], [], [], some payload⟩

/-- The round-trip outcome of one declared example payload. -/
def roundTripOutcome (op : Operation) (payload : JsValue) : ValidationOutcome :=
  validate op [] (exampleRequest op payload)

/-! ### Concrete operations and requests used by witnesses -/

/-- A `POST /users` operation requiring an `email` body field, with one
declared 200 example that (deliberately) lacks it. -/
def opUsers : Operation :=
  ⟨some "CreateUser", "post", [.lit "users"], [], [], [],
   ⟨["email"], [("email", .string)]⟩, [(.code 200, .obj [])]⟩

/-- A `GET /heartbeat` operation with a declared 200 mock example. -/
def opHeartbeat : Operation :=
  ⟨some "Heartbeat", "get", [.lit "heartbeat"], [], [], [], ⟨[], []⟩,
   [(.code 200, .obj [("mock", .bool true)])]⟩

/-- A mock-only operation with several example status codes. -/
def opMocked : Operation :=
  ⟨some "Mocked", "get", [.lit "mocked"], [], [], [], ⟨[], []⟩,
   [(.code 503, .str "down"), (.code 201, .str "created"),
    (.code 200, .str "ok")]⟩

/-- An operation with an operationId but no example at all. -/
def opBare : Operation :=
  ⟨some "Bare", "get", [.lit "bare"], [], [], [], ⟨[], []⟩, []⟩

/-- An operation with no operationId. -/
def opAnon : Operation :=
  ⟨none, "get", [.lit "anon"], [], [], [], ⟨[], []⟩,
   [(.code 200, .str "unreachable")]⟩

/-- A handler that always faults. -/
def boomHandler : Handler :=
  fun _ => .error "boom"

/-- An operation served by the faulting handler. -/
def opBoom : Operation :=
  ⟨some "Boom", "get", [.lit "boom"], [], [], [], ⟨[], []⟩, []⟩

def reqGet (segs : List String) : Req :=
  ⟨"get", segs, [], [], none⟩

/-- An operation with one declared parameter per non-body location and a
required body field, used to exercise violation aggregation. -/
def opC6 : Operation :=
  ⟨some "C6", "get", [.param "id"], [⟨"id", .integer, true⟩],
   [⟨"q", .integer, true⟩], [], ⟨["email"], []⟩, []⟩

def reqC6 : Req :=
  ⟨"get", ["abc"], [], [], none⟩

/-- The literal `GET /users/me` operation. -/
def opUsersMe : Operation :=
  ⟨some "Me", "get", [.lit "users", .lit "me"], [], [], [], ⟨[], []⟩, []⟩

/-- The templated `GET /users/\x7bid\x7d` operation. -/
def opUsersId : Operation :=
  ⟨some "UserById", "get", [.lit "users", .param "id"], [], [], [],
   ⟨[], []⟩, []⟩

/-- An operation whose declared example conforms to its body schema. -/
def opConform : Operation :=
  ⟨some "Conform", "post", [.lit "conform"], [], [], [],
   ⟨["email"], [("email", .string)]⟩,
   [(.code 200, .obj [("email", .str "a@b.c")])]⟩

/-! ### Helper lemmas -/

theorem perm_flatten {α : Type} {l₁ l₂ : List (List α)} (h : l₁.Perm l₂) :
    l₁.flatten.Perm l₂.flatten := by
  induction h with
  | nil => rfl
  | cons x _ ih =>
    simpa using ih.append_left x
  | swap x y l =>
    simp only [List.flatten_cons]
    rw [← List.append_assoc, ← List.append_assoc]
    exact (List.perm_append_comm).append_right _
  | trans _ _ ih₁ ih₂ => exact ih₁.trans ih₂

theorem lexGt_mid_gt (w u v : List Nat) :
    lexGt (w ++ 1 :: u) (w ++ 0 :: v) = true := by
  induction w with
  | nil => simp [lexGt]
  | cons a w ih => simpa [lexGt] using ih

theorem lexGt_mid_lt (w u v : List Nat) :
    lexGt (w ++ 0 :: u) (w ++ 1 :: v) = false := by
  induction w with
  | nil => simp [lexGt]
  | cons a w ih => simpa [lexGt] using ih

theorem key_mid_ne (w u v : List Nat) :
    (w ++ (0 : Nat) :: u) ≠ (w ++ 1 :: v) := by
  intro h
  have h2 := List.append_cancel_left h
  simp at h2

/-- Matching a template with a literal mid-segment implies the same path
matches the template with that segment replaced by a placeholder. -/
theorem matchSegs_param_of_lit (pre suf : List Seg) (litS nm : String) :
    ∀ (p : List String) (bs : List (String × String)),
      matchSegs (pre ++ .lit litS :: suf) p = some bs →
      ∃ bs2, matchSegs (pre ++ .param nm :: suf) p = some bs2 := by
  induction pre with
  | nil =>
    intro p bs h
    match p with
    | [] => simp [matchSegs] at h
    | x :: xs =>
      simp only [List.nil_append, matchSegs] at h ⊢
      by_cases hx : litS = x
      · rw [if_pos hx] at h
        exact ⟨(nm, x) :: bs, by rw [h]; rfl⟩
      · rw [if_neg hx] at h
        exact absurd h (by simp)
  | cons s pre ih =>
    intro p bs h
    match p with
    | [] =>
      cases s <;> simp [matchSegs] at h
    | x :: xs =>
      cases s with
      | lit s0 =>
        simp only [List.cons_append, List.append_eq, matchSegs] at h ⊢
        by_cases hx : s0 = x
        · rw [if_pos hx] at h ⊢
          exact ih xs bs h
        · rw [if_neg hx] at h
          exact absurd h (by simp)
      | param pn =>
        simp only [List.cons_append, List.append_eq, matchSegs] at h ⊢
        match hm : matchSegs (pre ++ Seg.lit litS :: suf) xs with
        | none => rw [hm] at h; simp at h
        | some bs0 =>
          obtain ⟨bs2, hbs2⟩ := ih xs bs0 hm
          exact ⟨(pn, x) :: bs2, by rw [hbs2]; rfl⟩

theorem checkParams_no_required_empty (loc : Location) (schema : List ParamSpec)
    (h : ∀ ps ∈ schema, ps.required = false) :
    checkParams loc schema [] = [] := by
  induction schema with
  | nil => rfl
  | cons ps rest ih =>
    have hps := h ps (by simp)
    have hrest := ih (fun q hq => h q (by simp [hq]))
    simp [checkParams, List.filterMap_cons, hps] at hrest ⊢
    exact hrest

/-- Violations produced by `filterMap` keep the declaration order of the
underlying schema entries. -/
theorem filterMap_field_sublist {α : Type} (f : α → Option Violation)
    (nameOf : α → String) (hf : ∀ a v, f a = some v → v.field = nameOf a)
    (l : List α) :
    ((l.filterMap f).map (fun v => v.field)).Sublist (l.map nameOf) := by
  induction l with
  | nil => simp
  | cons a t ih =>
    cases hfa : f a with
    | none =>
      simp only [List.filterMap_cons, hfa, List.map_cons]
      exact ih.cons _
    | some v =>
      simp only [List.filterMap_cons, hfa, List.map_cons, hf a v hfa]
      exact ih.cons₂ _

theorem checkParams_fields_sublist (loc : Location) (schema : List ParamSpec)
    (vals : List (String × String)) :
    ((checkParams loc schema vals).map (fun v => v.field)).Sublist
      (schema.map (fun ps => ps.name)) := by
  apply filterMap_field_sublist
  intro ps v h
  rcases hl : vals.lookup ps.name with _ | w <;> simp only [hl] at h
  · split at h
    · injection h with h2
      rw [← h2]
    · exact Option.noConfusion h
  · split at h
    · exact Option.noConfusion h
    · injection h with h2
      rw [← h2]

theorem map_req_field (l : List String) :
    ((l.map (fun r => (⟨Location.body, r, "required"⟩ : Violation))).map
      (fun v => v.field)) = l := by
  induction l with
  | nil => rfl
  | cons a t ih => simp only [List.map_cons, ih]

theorem checkBody_fields_sublist (schema : BodySchema) (b : Option JsValue) :
    ((checkBody schema b).map (fun v => v.field)).Sublist
      (schema.required ++ schema.fields.map (fun f => f.1) ++ [""]) := by
  match b with
  | none =>
    simp only [checkBody]
    rw [map_req_field, List.append_assoc]
    exact List.sublist_append_left _ _
  | some (.obj fs) =>
    simp only [checkBody, List.map_append]
    rw [map_req_field]
    have h1 : (schema.required.filter
        (fun r => (fs.lookup r).isNone)).Sublist schema.required :=
      List.filter_sublist _
    have h2 : ((schema.fields.filterMap (fun f =>
        match fs.lookup f.1 with
        | some v => if typeMatches f.2 v then (none : Option Violation)
                    else some (⟨.body, f.1, "type"⟩ : Violation)
        | none => none)).map (fun v => v.field)).Sublist
        (schema.fields.map (fun f => f.1)) := by
      apply filterMap_field_sublist
      intro a v h
      rcases hl : fs.lookup a.1 with _ | w <;> simp only [hl] at h
      · exact Option.noConfusion h
      · split at h
        · exact Option.noConfusion h
        · injection h with h2
          rw [← h2]
    exact (h1.append h2).trans (List.sublist_append_left _ [""])
  | some .null => exact (List.sublist_append_right _ _)
  | some (.bool b0) => exact (List.sublist_append_right _ _)
  | some (.num n) => exact (List.sublist_append_right _ _)
  | some (.str s) => exact (List.sublist_append_right _ _)
  | some (.arr xs) => exact (List.sublist_append_right _ _)

theorem minByCode_spec :
    ∀ (l : List (Nat × JsValue)) (c : Nat) (p : JsValue),
      minByCode l = some (c, p) → (c, p) ∈ l ∧ ∀ x ∈ l, c ≤ x.1 := by
  have foldMem : ∀ (xs : List (Nat × JsValue)) (a : Nat × JsValue),
      (xs.foldl (fun acc y => if y.1 < acc.1 then y else acc) a) ∈ a :: xs := by
    intro xs
    induction xs with
    | nil => intro a; simp
    | cons y ys ih =>
      intro a
      have h := ih (if y.1 < a.1 then y else a)
      simp only [List.foldl_cons]
      rcases List.mem_cons.mp h with h1 | h1
      · rw [h1]
        by_cases hy : y.1 < a.1
        · rw [if_pos hy]; simp
        · rw [if_neg hy]; simp
      · simp [h1]
  have foldLe : ∀ (xs : List (Nat × JsValue)) (a : Nat × JsValue),
      (xs.foldl (fun acc y => if y.1 < acc.1 then y else acc) a).1 ≤ a.1 ∧
        ∀ x ∈ xs, (xs.foldl (fun acc y => if y.1 < acc.1 then y else acc) a).1 ≤ x.1 := by
    intro xs
    induction xs with
    | nil => intro a; simp
    | cons y ys ih =>
      intro a
      have h := ih (if y.1 < a.1 then y else a)
      simp only [List.foldl_cons]
      have hstart : (if y.1 < a.1 then y else a).1 ≤ a.1 := by
        by_cases hy : y.1 < a.1
        · rw [if_pos hy]; exact Nat.le_of_lt hy
        · rw [if_neg hy]
      have hy2 : (if y.1 < a.1 then y else a).1 ≤ y.1 := by
        by_cases hy : y.1 < a.1
        · rw [if_pos hy]
        · rw [if_neg hy]; exact Nat.le_of_not_lt hy
      refine ⟨Nat.le_trans h.1 hstart, ?_⟩
      intro x hx
      rcases List.mem_cons.mp hx with h1 | h1
      · subst h1; exact Nat.le_trans h.1 hy2
      · exact h.2 x h1
  intro l c p h
  match l with
  | [] => simp [minByCode] at h
  | x :: xs =>
    simp only [minByCode, Option.some_inj] at h
    have hc : (xs.foldl (fun acc y => if y.1 < acc.1 then y else acc) x).1 = c := by
      rw [h]
    constructor
    · rw [← h]; exact foldMem xs x
    · intro z hz
      rcases List.mem_cons.mp hz with h1 | h1
      · rw [h1, ← hc]; exact (foldLe xs x).1
      · rw [← hc]; exact (foldLe xs x).2 z h1

theorem successExamples_bounds (op : Operation) (c : Nat) (p : JsValue)
    (h : (c, p) ∈ successExamples op) : 200 ≤ c ∧ c < 300 := by
  simp only [successExamples, List.mem_filterMap] at h
  obtain ⟨e, _, he⟩ := h
  rcases e with ⟨sk, payload⟩
  cases sk with
  | code n =>
    dsimp only at he
    by_cases hb : 200 ≤ n ∧ n < 300
    · rw [if_pos hb] at he
      cases he
      exact hb
    · rw [if_neg hb] at he; cases he
  | defaultResp => cases he

/-! ### Claim theorems -/

/-- C2: when the Schema Validator returns Invalid for a matched request,
the dispatcher's terminal outcome is a 400 response whose body is
`\x7b "err": [violations] \x7d` with the validator's structured violation
list. -/
theorem validation_failure_maps_to_400 (ops : List Operation)
    (registry : List (String × Handler)) (req : Req) (op : Operation)
    (pp : List (String × String)) (vs : List Violation)
    (hm : matchRequest ops req.method req.pathSegs = .matched op pp)
    (hv : validate op pp req = .invalid vs) :
    handleRequest ops registry req =
      .ok ⟨400, .obj [("err", .arr (vs.map violationToJson))], []⟩ := by
  unfold handleRequest
  simp only [hm, hv]
  rfl

/-- Witness for C2, the spec scenario: `POST /users` with a body missing
the required `email` field yields status 400 and one `body`/`email`
violation. -/
theorem validation_failure_maps_to_400_witness :
    handleRequest [opUsers] []
      (⟨"post", ["users"], [], [], some (.obj [])⟩ : Req) =
      .ok ⟨400, .obj [("err", .arr
        [violationToJson ⟨.body, "email", "required"⟩])], []⟩ :=
  validation_failure_maps_to_400 [opUsers] []
    ⟨"post", ["users"], [], [], some (.obj [])⟩ opUsers []
    [⟨.body, "email", "required"⟩] rfl rfl

/-- C3: when no operation of the loaded specification matches the request's
method and path, the dispatcher's terminal outcome is a 404 response with
body exactly `\x7b"err": "not found"\x7d`. -/
theorem unmatched_request_maps_to_404 (ops : List Operation)
    (registry : List (String × Handler)) (req : Req)
    (h : ∀ op ∈ ops, op.method ≠ req.method ∨
      matchSegs op.pathT req.pathSegs = none) :
    handleRequest ops registry req =
      .ok ⟨404, .obj [("err", .str "not found")], []⟩ := by
  have hc : (ops.filterMap (fun op =>
      if op.method = req.method then
        (matchSegs op.pathT req.pathSegs).map (fun bs => (op, bs))
      else none)) = ([] : List (Operation × List (String × String))) := by
    rw [List.filterMap_eq_nil_iff]
    intro op hop
    rcases h op hop with h1 | h1
    · rw [if_neg h1]
    · split
      · rw [h1]; rfl
      · rfl
  unfold handleRequest matchRequest
  rw [hc]
  rfl

/-- Witness for C3, the spec scenario: `GET /unknown/path` against a spec
declaring other operations returns the 404 body. -/
theorem unmatched_request_maps_to_404_witness :
    handleRequest [opUsers, opHeartbeat] [] (reqGet ["unknown", "path"]) =
      .ok ⟨404, .obj [("err", .str "not found")], []⟩ :=
  unmatched_request_maps_to_404 [opUsers, opHeartbeat] []
    (reqGet ["unknown", "path"]) (by decide)

/-- C4: an operation whose operationId has a registered custom handler is
answered by that handler's return value verbatim, even when a mock example
is also declared for the operation. -/
theorem registered_handler_returns_verbatim
    (registry : List (String × Handler)) (op : Operation) (req : Req)
    (oid : String) (hnd : Handler)
    (hid : op.operationId = some oid)
    (hreg : lookupHandler registry oid = some hnd)
    (hex : op.examples ≠ []) :
    resolveOp registry op req = hnd req := by
  unfold resolveOp
  rw [hid, Option.some_bind, hreg]

/-- Witness for C4, the spec scenario: with the `Heartbeat` handler
registered at startup, requests to the operation return the handler's
output, although `opHeartbeat` declares a 200 mock example. -/
theorem registered_handler_returns_verbatim_witness :
    resolveOp appRegistry opHeartbeat (reqGet ["heartbeat"]) =
      heartbeat (reqGet ["heartbeat"]) :=
  registered_handler_returns_verbatim appRegistry opHeartbeat
    (reqGet ["heartbeat"]) "Heartbeat" heartbeat rfl rfl (by simp [opHeartbeat])

/-- C8: a fault from a custom handler (exception or rejected result)
propagates out of the dispatcher as an error and reaches the transport via
`next(e)`; it is not converted into one of the four dispatcher outcomes. -/
theorem handler_fault_propagates (ops : List Operation)
    (registry : List (String × Handler)) (req : Req) (op : Operation)
    (pp : List (String × String)) (oid e : String) (hnd : Handler)
    (hm : matchRequest ops req.method req.pathSegs = .matched op pp)
    (hv : validate op pp req = .valid)
    (hid : op.operationId = some oid)
    (hreg : lookupHandler registry oid = some hnd)
    (hf : hnd req = .error e) :
    handleRequest ops registry req = .error e ∧
      middlewareStep (handleRequest ops registry req) = .nextErr e := by
  have hh : handleRequest ops registry req = .error e := by
    unfold handleRequest
    simp only [hm, hv]
    unfold resolveOp
    rw [hid, Option.some_bind, hreg]
    exact hf
  exact ⟨hh, by rw [hh]; rfl⟩

/-- Witness for C8: a registered handler that rejects makes the dispatcher
reject, and the middleware passes the fault onward. -/
theorem handler_fault_propagates_witness :
    handleRequest [opBoom] [("Boom", boomHandler)] (reqGet ["boom"]) =
        .error "boom" ∧
      middlewareStep (handleRequest [opBoom] [("Boom", boomHandler)]
        (reqGet ["boom"])) = .nextErr "boom" :=
  handler_fault_propagates [opBoom] [("Boom", boomHandler)]
    (reqGet ["boom"]) opBoom [] "Boom" "boom" boomHandler rfl rfl rfl rfl rfl

/-- C9: the not-implemented fallback for a matched operation without an
operationId answers 500 with an empty JSON object body, not the 501
sentinel. -/
theorem missing_operationId_gives_500_empty_body
    (registry : List (String × Handler)) (op : Operation) (req : Req)
    (h : op.operationId = none) :
    resolveOp registry op req = .ok ⟨500, .obj [], []⟩ := by
  unfold resolveOp
  rw [h]
  unfold notImplemented
  rw [h]
  rfl

/-- Witness for C9: an operation without operationId resolves to 500 and
`\x7b\x7d`, even though it declares an example. -/
theorem missing_operationId_gives_500_empty_body_witness :
    resolveOp [] opAnon (reqGet ["anon"]) = .ok ⟨500, .obj [], []⟩ :=
  missing_operationId_gives_500_empty_body [] opAnon (reqGet ["anon"]) rfl

/-- C1: a request resolved with no registered custom handler is answered
from the mock: the lowest declared success status code's example payload is
returned as-is (or the operation's documented default), and with no
declared example at all the response is the generic 501 sentinel body. -/
theorem mock_fallback_selects_lowest_success
    (registry : List (String × Handler)) (op : Operation) (req : Req)
    (oid : String)
    (hid : op.operationId = some oid) (hne : oid ≠ "")
    (hreg : lookupHandler registry oid = none) :
    (∀ c p, minByCode (successExamples op) = some (c, p) →
      resolveOp registry op req = .ok ⟨c, p, []⟩ ∧
        (c, p) ∈ successExamples op ∧ 200 ≤ c ∧ c < 300 ∧
        ∀ x ∈ successExamples op, c ≤ x.1)
    ∧ (∀ d, successExamples op = [] → defaultExample op = some d →
        resolveOp registry op req = .ok ⟨200, d, []⟩)
    ∧ (successExamples op = [] → defaultExample op = none →
        resolveOp registry op req = .ok ⟨501, mockSentinel, []⟩) := by
  have hres : resolveOp registry op req = .ok (notImplemented op) := by
    unfold resolveOp
    rw [hid, Option.some_bind, hreg]
  have htr : opIdTruthy op.operationId = true := by
    rw [hid]
    simp only [opIdTruthy, bne_iff_ne]
    exact hne
  have hni : notImplemented op =
      ⟨(mockResponseForOperation op).1, (mockResponseForOperation op).2, []⟩ := by
    unfold notImplemented
    rw [htr]
    rfl
  refine ⟨?_, ?_, ?_⟩
  · intro c p hmin
    have hmem := minByCode_spec (successExamples op) c p hmin
    have hb := successExamples_bounds op c p hmem.1
    have hmock : mockResponseForOperation op = (c, p) := by
      unfold mockResponseForOperation
      rw [hmin]
    refine ⟨?_, hmem.1, hb.1, hb.2, hmem.2⟩
    rw [hres, hni, hmock]
  · intro d hse hde
    have hmock : mockResponseForOperation op = (200, d) := by
      unfold mockResponseForOperation
      rw [hse, hde]
      rfl
    rw [hres, hni, hmock]
  · intro hse hde
    have hmock : mockResponseForOperation op = (501, mockSentinel) := by
      unfold mockResponseForOperation
      rw [hse, hde]
      rfl
    rw [hres, hni, hmock]

/-- Witness for C1: the mock for `opMocked` picks its lowest 2xx example
(200, not 201 or 503), and `opBare`, with no example, gets the 501
sentinel. -/
theorem mock_fallback_selects_lowest_success_witness :
    resolveOp [] opMocked (reqGet ["mocked"]) = .ok ⟨200, .str "ok", []⟩ ∧
      resolveOp [] opBare (reqGet ["bare"]) = .ok ⟨501, mockSentinel, []⟩ :=
  ⟨((mock_fallback_selects_lowest_success [] opMocked (reqGet ["mocked"])
      "Mocked" rfl (by decide) rfl).1 200 (.str "ok") rfl).1,
    (mock_fallback_selects_lowest_success [] opBare (reqGet ["bare"])
      "Bare" rfl (by decide) rfl).2.2 rfl rfl⟩

/-- C6: the Schema Validator aggregates the violations of all locations
into one list in the deterministic order path, query, headers, body —
checking the locations in any other order finds the same violations — and
within each location violations appear in schema declaration order. -/
theorem validator_aggregation_order (op : Operation)
    (pp : List (String × String)) (req : Req) (order : List Location)
    (h : order.Perm [Location.path, .query, .header, .body]) :
    violationsOf op pp req =
        validateInOrder op pp req [Location.path, .query, .header, .body]
      ∧ (validateInOrder op pp req order).Perm (violationsOf op pp req)
      ∧ (∀ loc schema vals,
          ((checkParams loc schema vals).map (fun v => v.field)).Sublist
            (schema.map (fun ps => ps.name)))
      ∧ (∀ schema b,
          ((checkBody schema b).map (fun v => v.field)).Sublist
            (schema.required ++ schema.fields.map (fun f => f.1) ++ [""])) := by
  have heq : violationsOf op pp req =
      validateInOrder op pp req [Location.path, .query, .header, .body] := by
    simp [violationsOf, validateInOrder, locViols]
  refine ⟨heq, ?_, checkParams_fields_sublist, checkBody_fields_sublist⟩
  rw [heq]
  exact perm_flatten (h.map (locViols op pp req))

/-- Witness for C6: an operation with one violation in each of path, query
and body, validated with the locations in a scrambled order, reports the
same violations as the canonical order. -/
theorem validator_aggregation_order_witness :
    (validateInOrder opC6 [("id", "abc")] reqC6
        [Location.query, .body, .header, .path]).Perm
      (violationsOf opC6 [("id", "abc")] reqC6) :=
  (validator_aggregation_order opC6 [("id", "abc")] reqC6
    [Location.query, .body, .header, .path] (by decide)).2.1

/-- C7 (amended): for a successfully loaded specification whose operations
declare no required parameters and whose examples each conform to their
operation's body schema, replaying any declared example through the
Validator as a request yields Valid. -/
theorem examples_roundtrip_under_conformance (ops model : List Operation)
    (hload : load ops = .ok model)
    (hfree : ∀ op ∈ model,
      (∀ ps ∈ op.pathSchema, ps.required = false) ∧
      (∀ ps ∈ op.querySchema, ps.required = false) ∧
      (∀ ps ∈ op.headerSchema, ps.required = false))
    (hconf : ∀ op ∈ model, ∀ e ∈ op.examples,
      checkBody op.bodySchema (some e.2) = []) :
    ∀ op ∈ model, ∀ e ∈ op.examples, roundTripOutcome op e.2 = .valid := by
  intro op hop e he
  have hf := hfree op hop
  have hv : violationsOf op [] (exampleRequest op e.2) = [] := by
    simp only [violationsOf, exampleRequest]
    rw [checkParams_no_required_empty _ _ hf.1,
        checkParams_no_required_empty _ _ hf.2.1,
        checkParams_no_required_empty _ _ hf.2.2]
    simpa using hconf op hop e he
  unfold roundTripOutcome validate
  rw [hv]
  rfl

/-- Witness for C7 (amended) on a one-operation specification whose
example conforms to its schema. -/
theorem examples_roundtrip_under_conformance_witness :
    roundTripOutcome opConform (.obj [("email", .str "a@b.c")]) = .valid :=
  examples_roundtrip_under_conformance [opConform] [opConform] rfl
    (by decide)
    (fun op hop e he => by
      simp only [List.mem_singleton] at hop
      subst hop
      simp only [opConform, List.mem_singleton] at he
      rw [he]
      rfl)
    opConform (by simp) (.code 200, .obj [("email", .str "a@b.c")])
    (by simp [opConform])

/-- C7 counterexample: loading succeeds on a specification whose declared
200 example violates its own body schema, and the round-trip validation of
that example is Invalid — successful loading does not guarantee the claim's
round-trip property. -/
theorem examples_roundtrip_counterexample :
    load [opUsers] = .ok [opUsers] ∧
      (StatusKey.code 200, JsValue.obj []) ∈ opUsers.examples ∧
      roundTripOutcome opUsers (.obj []) =
        .invalid [⟨.body, "email", "required"⟩] :=
  ⟨rfl, by simp [opUsers], rfl⟩

/-- C5: for two registered path templates overlapping with a literal and a
placeholder segment at the same position (same method), the literal match
wins: a path matching the literal template matches the literal operation,
and a path matching only the templated one matches the templated
operation. -/
theorem literal_segment_beats_placeholder (pre suf : List Seg)
    (litS nm m : String) (op1 op2 : Operation) (p : List String)
    (h1 : op1.pathT = pre ++ Seg.lit litS :: suf)
    (h2 : op2.pathT = pre ++ Seg.param nm :: suf)
    (hm1 : op1.method = m) (hm2 : op2.method = m) :
    (∀ bs, matchSegs op1.pathT p = some bs →
      matchRequest [op1, op2] m p = .matched op1 bs)
    ∧ (matchSegs op1.pathT p = none →
      ∀ bs, matchSegs op2.pathT p = some bs →
        matchRequest [op1, op2] m p = .matched op2 bs) := by
  have hk1 : specKey op1.pathT = specKey pre ++ 1 :: specKey suf := by
    simp [h1, specKey, segWeight]
  have hk2 : specKey op2.pathT = specKey pre ++ 0 :: specKey suf := by
    simp [h2, specKey, segWeight]
  have hlex : lexGt (specKey op2.pathT) (specKey op1.pathT) = false := by
    rw [hk1, hk2]
    exact lexGt_mid_lt _ _ _
  have hbeq : (specKey op2.pathT == specKey op1.pathT) = false := by
    rw [hk1, hk2]
    exact beq_eq_false_iff_ne.mpr (key_mid_ne _ _ _)
  constructor
  · intro bs hmat1
    obtain ⟨bs2, hmat2⟩ := matchSegs_param_of_lit pre suf litS nm p bs
      (h1 ▸ hmat1)
    rw [← h2] at hmat2
    have hc : ([op1, op2].filterMap (fun op =>
        if op.method = m then
          (matchSegs op.pathT p).map (fun bs => (op, bs))
        else none)) = [(op1, bs), (op2, bs2)] := by
      simp [hm1, hm2, hmat1, hmat2]
    unfold matchRequest
    rw [hc]
    simp only [List.foldl_cons, List.foldl_nil, hlex, Bool.false_eq_true,
      if_false, List.filter_cons, hbeq, beq_self_eq_true, if_true,
      List.filter_nil, List.length_cons, List.length_nil]
    rfl
  · intro hnone bs hmat2
    have hc : ([op1, op2].filterMap (fun op =>
        if op.method = m then
          (matchSegs op.pathT p).map (fun bs => (op, bs))
        else none)) = [(op2, bs)] := by
      simp [hm1, hm2, hnone, hmat2]
    unfold matchRequest
    rw [hc]
    simp only [List.foldl_nil, List.filter_cons, beq_self_eq_true, if_true,
      List.filter_nil, List.length_cons, List.length_nil]
    rfl

/-- Witness for C5, the spec example: with `/users/me` and `/users/\x7bid\x7d`
both registered, `/users/me` matches the literal operation and `/users/42`
matches the templated one with the binding `id = 42`. -/
theorem literal_segment_beats_placeholder_witness :
    matchRequest [opUsersMe, opUsersId] "get" ["users", "me"] =
        .matched opUsersMe []
      ∧ matchRequest [opUsersMe, opUsersId] "get" ["users", "42"] =
        .matched opUsersId [("id", "42")] :=
  ⟨(literal_segment_beats_placeholder [Seg.lit "users"] [] "me" "id" "get"
      opUsersMe opUsersId ["users", "me"] rfl rfl rfl rfl).1 [] rfl,
    (literal_segment_beats_placeholder [Seg.lit "users"] [] "me" "id" "get"
      opUsersMe opUsersId ["users", "42"] rfl rfl rfl rfl).2 rfl
      [("id", "42")] rfl⟩

/-- C10: the registered custom `"JSON"` format predicate accepts a string
exactly when `JSON.parse` succeeds and the parsed value has JavaScript
`typeof` `"object"` — strings parsing to objects, arrays or null are
accepted, strings parsing to numbers, strings or booleans, and unparseable
strings, are rejected. -/
theorem json_format_accepts_object_typeof (s : String) :
    (jsonFormatValidate s = true ↔
      ∃ v, jsonParse s = some v ∧ jsTypeof v = "object")
    ∧ ∀ v : JsValue, jsTypeof v = "object" ↔
        (v = JsValue.null ∨ (∃ xs, v = JsValue.arr xs) ∨
          (∃ fs, v = JsValue.obj fs)) := by
  constructor
  · unfold jsonFormatValidate
    cases h : jsonParse s with
    | none => simp
    | some v => simp [beq_iff_eq]
  · intro v
    cases v <;> simp [jsTypeof]

end CCApi
